import Mathlib

/-!
Verification of the live-flash-auction real-time core against its
natural-language specification.  The definitions below are a shallow
embedding of the Python sources:

* `bidComparisonScript`  — the Lua script `BID_COMPARISON_SCRIPT` in
  `shared/redis_client/client.py`;
* `processBid` / `handleAntiSnipe` — `BidService.process_bid` and
  `BidService._handle_anti_snipe` in
  `bid-processing-service/app/services/bid_service.py`;
* `zadd` / `addTopBid` / `getTopBids` — the leaderboard helpers
  `RedisHelper.add_top_bid` / `get_top_bids`;
* `closeAuction` — `AuctionService.close_auction` in
  `auction-management-service/app/services/auction_service.py`;
* `buildCloseNotification` — the winner/loser settlement-message
  construction inside `TimerManager._handle_auction_end` in
  `timer-service/app/services/timer_manager.py`;
* `onJoinAuction` — `ConnectionHandler.on_join_auction` in
  `websocket-service/app/handlers/connection_handler.py`.

Redis hashes are modelled as records of `Option` fields (a missing field
is `none`); monetary amounts are rationals; millisecond clocks are
integers.  Fallible post-commit I/O steps are driven by explicit failure
flags so that the error-swallowing behaviour of the bid path can be
stated.  Socket-room bookkeeping, logging and the generated `bid_id`
UUID carry no claim-relevant information and are projected away.
-/

namespace LiveAuction

/-- The per-auction live-state hash `auction:{id}:state`.  Every field is
optional: Redis hashes report missing fields as absent. -/
structure LiveState where
  status : Option String := none
  host_user_id : Option String := none
  current_high_bid : Option ℚ := none
  high_bidder_id : Option String := none
  high_bidder_username : Option String := none
  last_bid_time : Option Int := none
  start_time : Option Int := none
  end_time : Option Int := none
  participant_count : Option Nat := none
  bid_count : Option Nat := none
  anti_snipe_count : Option Nat := none
deriving DecidableEq, Repr

/-- Result of running the atomic bid script: the new hash contents plus the
integer returned to the caller (1 = accepted, 0 = outbid). -/
structure ScriptResult where
  state : LiveState
  ret : Nat
deriving DecidableEq, Repr

/-- The Lua `BID_COMPARISON_SCRIPT`: reads `current_high_bid` (missing
field read as `'0'`), and when the submitted amount is strictly greater
it writes the four bid fields, increments `bid_count` with `HINCRBY`
(missing counter treated as 0) and returns 1; otherwise returns 0 and
leaves the hash untouched. -/
def bidComparisonScript (st : LiveState) (bid_amount : ℚ)
    (user_id username : String) (timestamp : Int) : ScriptResult :=
  let current_high := st.current_high_bid.getD 0
  if bid_amount > current_high then
    { state :=
        { st with
          current_high_bid := some bid_amount
          high_bidder_id := some user_id
          high_bidder_username := some username
          last_bid_time := some timestamp
          bid_count := some (st.bid_count.getD 0 + 1) }
      ret := 1 }
  else
    { state := st, ret := 0 }

/-! ## Leaderboard: the `auction:{id}:top_bids` sorted set -/

/-- A Redis sorted set, kept as a list of (member, score) pairs sorted
ascending by score with ties broken by the member string, mirroring
Redis ZSET ordering. -/
abbrev ZSet := List (String × ℚ)

/-- The Redis ZSET order: by score, ties by lexicographic member. -/
def zLe (p q : String × ℚ) : Prop :=
  p.2 < q.2 ∨ (p.2 = q.2 ∧ p.1 ≤ q.1)

instance : DecidableRel zLe := fun p q =>
  inferInstanceAs (Decidable (p.2 < q.2 ∨ (p.2 = q.2 ∧ p.1 ≤ q.1)))

instance : IsTotal (String × ℚ) zLe where
  total p q := by
    rcases lt_trichotomy p.2 q.2 with hlt | heq | hgt
    · exact Or.inl (Or.inl hlt)
    · rcases le_total p.1 q.1 with hm | hm
      · exact Or.inl (Or.inr ⟨heq, hm⟩)
      · exact Or.inr (Or.inr ⟨heq.symm, hm⟩)
    · exact Or.inr (Or.inl hgt)

instance : IsTrans (String × ℚ) zLe where
  trans p q r hpq hqr := by
    rcases hpq with h1 | ⟨e1, m1⟩
    · rcases hqr with h2 | ⟨e2, _⟩
      · exact Or.inl (h1.trans h2)
      · exact Or.inl (e2 ▸ h1)
    · rcases hqr with h2 | ⟨e2, m2⟩
      · exact Or.inl (e1 ▸ h2)
      · exact Or.inr ⟨e1.trans e2, m1.trans m2⟩

/-- ZADD with a single member: replaces any existing entry for the member
and keeps the set ordered. -/
def zadd (z : ZSet) (member : String) (score : ℚ) : ZSet :=
  List.insertionSort zLe ((z.filter fun p => p.1 ≠ member) ++ [(member, score)])

/-- `RedisHelper.add_top_bid`: ZADD the `(user_id, username)` member scored
by the amount, then if the cardinality exceeds 3 remove the lowest ranks
(`ZREMRANGEBYRANK key 0 (count-4)`), keeping only the top three. -/
def addTopBid (z : ZSet) (user_id username : String) (amount : ℚ) : ZSet :=
  let member := user_id ++ ":" ++ username
  let z1 := zadd z member amount
  let count := z1.length
  if count > 3 then z1.drop (count - 3) else z1

/-- A parsed leaderboard entry as returned by `get_top_bids`. -/
structure TopBid where
  user_id : String
  username : String
  amount : ℚ
deriving DecidableEq, Repr

/-- Split a ZSET member back into `(user_id, username)`: Python
`member.split(":", 1)`. -/
def parseMember (m : String) : String × String :=
  match m.splitOn ":" with
  | [] => (m, "")
  | x :: rest => (x, String.intercalate ":" rest)

/-- `RedisHelper.get_top_bids`: `ZREVRANGE key 0 (limit-1) WITHSCORES`,
i.e. the highest `limit` entries in descending order (modelled for
`limit ≥ 1`; all call sites use the default limit 3). -/
def getTopBids (z : ZSet) (limit : Nat) : List TopBid :=
  (z.reverse.take limit).map fun p =>
    { user_id := (parseMember p.1).1, username := (parseMember p.1).2, amount := p.2 }

/-! ## Bid engine -/

/-- The environment-driven constants of `shared/config/settings.py` that
the bid path reads.  Threshold and extension are in seconds. -/
structure Settings where
  minimum_bid_increment : ℚ
  anti_snipe_threshold : Int
  anti_snipe_extension : Int
  max_anti_snipe_extensions : Nat
deriving DecidableEq, Repr

/-- The defaults from `settings.py`: increment 100, threshold 30 s,
extension 30 s, at most 5 extensions. -/
def defaultSettings : Settings :=
  { minimum_bid_increment := 100
    anti_snipe_threshold := 30
    anti_snipe_extension := 30
    max_anti_snipe_extensions := 5 }

/-- Injected failures for the fallible post-commit I/O steps of
`process_bid`: a true flag makes the corresponding Redis/SQS call raise. -/
structure Faults where
  leaderboard : Bool := false
  antiSnipe : Bool := false
  publishEvent : Bool := false
  enqueue : Bool := false
deriving DecidableEq, Repr

/-- No injected failures: every I/O call succeeds. -/
def noFaults : Faults := {}

/-- A Redis pub/sub channel of one auction. -/
inductive Channel where
  | events (auction_id : String)
  | timer (auction_id : String)
deriving DecidableEq, Repr

/-- Pub/sub payloads published by the bid engine and the close paths. -/
inductive Message where
  | bid (auction_id user_id username : String) (amount : ℚ) (timestamp : Int)
      (is_new_high anti_snipe_triggered : Bool)
  | antiSnipe (auction_id : String) (new_end_time extended_by : Int)
      (extension_count max_extensions : Nat)
  | auctionEnd (auction_id : String) (winner_id winner_username : Option String)
      (winning_bid : ℚ) (end_time : Int)
  | timerFinal (auction_id : String)
deriving DecidableEq, Repr

/-- A bid-persistence message enqueued on SQS by
`_enqueue_bid_for_persistence` (the generated `bid_id` UUID is not
modelled). -/
structure BidPersistMessage where
  auction_id : String
  user_id : String
  username : String
  amount : ℚ
  timestamp : Int
  is_highest : Bool
  is_winning : Bool
deriving DecidableEq, Repr

/-- The error kinds raised by `process_bid` (mapped to 404/409/400/403 by
the route layer).  `invalidBid` carries the required minimum named in its
message. -/
inductive BidError where
  | auctionNotFound
  | auctionClosed
  | invalidBid (required_minimum : ℚ)
  | forbidden
deriving DecidableEq, Repr

/-- The dictionary returned by `process_bid` on the success and outbid
paths (`anti_snipe_triggered` is absent from the outbid response). -/
structure BidReply where
  status : String
  is_highest : Bool
  current_high_bid : ℚ
  your_bid : ℚ
  anti_snipe_triggered : Option Bool
deriving DecidableEq, Repr

/-- How a `process_bid` call terminates: a raised validation error, an
unhandled exception propagating out of a post-commit step, or a returned
reply. -/
inductive BidOutcome where
  | error (e : BidError)
  | exception
  | reply (r : BidReply)
deriving DecidableEq, Repr

/-- The Redis/SQS state touched by one `process_bid` call. -/
structure BidEffects where
  state : Option LiveState
  endTimeKey : Option Int
  topBids : ZSet
  published : List (Channel × Message)
  enqueued : List BidPersistMessage
deriving DecidableEq, Repr

/-- Inputs of one `process_bid` call: the live-state hash (`none` when the
hash is missing or empty), the dedicated `auction:{id}:end_time` key, the
leaderboard, the `host_user_id` column of the durable auction row, and the
wall clock. -/
structure BidEnv where
  auctionState : Option LiveState
  endTimeKey : Option Int
  topBids : ZSet
  dbHostUserId : Option String
  now : Int
deriving DecidableEq, Repr

/-- `BidService._handle_anti_snipe`: re-read the anti-snipe count from the
state (missing read as 0); if it reached the configured maximum do
nothing and report no extension; otherwise extend the end time by the
configured extension, store it in the dedicated key and in the state
hash, increment the count, and publish an `anti_snipe` event on the timer
channel.  Any exception is caught and reported as no extension. -/
def handleAntiSnipe (s : Settings) (fail : Bool) (auction_id : String)
    (current_end_time_ms : Int) (st : LiveState) (endKey : Option Int) :
    Bool × LiveState × Option Int × List (Channel × Message) :=
  if fail then (false, st, endKey, [])
  else
    let anti_snipe_count := st.anti_snipe_count.getD 0
    if anti_snipe_count ≥ s.max_anti_snipe_extensions then
      (false, st, endKey, [])
    else
      let extension_ms := s.anti_snipe_extension * 1000
      let new_end_time_ms := current_end_time_ms + extension_ms
      let st1 :=
        { st with
          end_time := some new_end_time_ms
          anti_snipe_count := some (anti_snipe_count + 1) }
      (true, st1, some new_end_time_ms,
        [(Channel.timer auction_id,
          Message.antiSnipe auction_id new_end_time_ms extension_ms
            (anti_snipe_count + 1) s.max_anti_snipe_extensions)])

/-- `BidService.process_bid`.  Steps, in source order: (1) missing/empty
state hash raises `AuctionNotFound`; (1b) non-live status raises
`AuctionClosed`; (1.5) a missing `host_user_id` is backfilled from the
durable row and cached into the hash, then a bid by the host raises
`Forbidden`; (2) a non-positive time remaining against the dedicated
end-time key (missing key read as 0) raises `AuctionClosed`; (3) an
amount below `current_high_bid + MINIMUM_BID_INCREMENT` raises
`InvalidBid` naming the minimum; (4) the Lua script commits atomically
(the two `get_current_timestamp_ms()` reads of the source are modelled as
the single instant `env.now`) —
on 0 the outbid reply is returned; (5) the leaderboard upsert is not
guarded, so its failure propagates; (6) anti-snipe runs when the time
remaining is inside the threshold; (7) the bid event publish is not
guarded, so its failure propagates; (8) the persistence enqueue swallows
its own failure; then the success reply is returned. -/
def processBid (s : Settings) (f : Faults) (auction_id user_id username : String)
    (amount : ℚ) (env : BidEnv) : BidOutcome × BidEffects :=
  let keep : BidEffects :=
    { state := env.auctionState, endTimeKey := env.endTimeKey,
      topBids := env.topBids, published := [], enqueued := [] }
  match env.auctionState with
  | none => (.error .auctionNotFound, keep)
  | some st0 =>
    if st0.status ≠ some "live" then (.error .auctionClosed, keep)
    else
      let host_user_id := st0.host_user_id.orElse fun _ => env.dbHostUserId
      let st1 := { st0 with host_user_id := host_user_id }
      let eff1 := { keep with state := some st1 }
      if host_user_id = some user_id then (.error .forbidden, eff1)
      else
        let end_time_ms := env.endTimeKey.getD 0
        let time_remaining_ms := end_time_ms - env.now
        if time_remaining_ms ≤ 0 then (.error .auctionClosed, eff1)
        else
          let current_high := st1.current_high_bid.getD 0
          let min_bid := current_high + s.minimum_bid_increment
          if amount < min_bid then (.error (.invalidBid min_bid), eff1)
          else
            let script := bidComparisonScript st1 amount user_id username env.now
            if script.ret = 0 then
              (.reply
                { status := "outbid", is_highest := false,
                  current_high_bid := current_high, your_bid := amount,
                  anti_snipe_triggered := none },
               { eff1 with state := some script.state })
            else
              let st2 := script.state
              if f.leaderboard then (.exception, { eff1 with state := some st2 })
              else
                let tb := addTopBid env.topBids user_id username amount
                let post :=
                  if time_remaining_ms < s.anti_snipe_threshold * 1000 then
                    handleAntiSnipe s f.antiSnipe auction_id end_time_ms st2 env.endTimeKey
                  else (false, st2, env.endTimeKey, [])
                let anti_snipe_triggered := post.1
                let st3 := post.2.1
                let endKey3 := post.2.2.1
                let timerMsgs := post.2.2.2
                if f.publishEvent then
                  (.exception,
                   { state := some st3, endTimeKey := endKey3, topBids := tb,
                     published := timerMsgs, enqueued := [] })
                else
                  let bidMsg :=
                    (Channel.events auction_id,
                     Message.bid auction_id user_id username amount env.now true
                       anti_snipe_triggered)
                  let enq : List BidPersistMessage :=
                    if f.enqueue then []
                    else
                      [{ auction_id := auction_id, user_id := user_id,
                         username := username, amount := amount,
                         timestamp := env.now, is_highest := true,
                         is_winning := true }]
                  (.reply
                    { status := "success", is_highest := true,
                      current_high_bid := amount, your_bid := amount,
                      anti_snipe_triggered := some anti_snipe_triggered },
                   { state := some st3, endTimeKey := endKey3, topBids := tb,
                     published := timerMsgs ++ [bidMsg], enqueued := enq })

/-! ## Manual close (`AuctionService.close_auction`) -/

/-- The durable auction row columns touched by the close paths. -/
structure AuctionRow where
  auction_id : String
  host_user_id : String
  title : String
  status : String
  starting_bid : Option ℚ
  ended_at : Option Int
  winner_id : Option String
  winning_bid : Option ℚ
deriving DecidableEq, Repr

/-- HTTP result of the manual close endpoint. -/
inductive CloseResult where
  | notFound
  | forbidden
  | ok (auction_id : String)
deriving DecidableEq, Repr

/-- State visible to / touched by the manual close: durable row, live-state
hash, the `auction:{id}:active` key, pub/sub publishes and the settlement
queue. -/
structure CloseEffects where
  db : Option AuctionRow
  state : Option LiveState
  activeKey : Bool
  published : List (Channel × Message)
  enqueuedNotifications : Nat
deriving DecidableEq, Repr

/-- `AuctionService.close_auction`: 404 when the row is missing, 403 when
the requestor is not the host; otherwise set `status='closed'` and
`ended_at=now` on the row, delete the active key and HSET the live-state
status to closed (HSET creates the hash when missing).  It publishes
nothing, enqueues nothing and never writes `winner_id`/`winning_bid`. -/
def closeAuction (user_id : String) (now : Int)
    (db : Option AuctionRow) (st : Option LiveState) (activeKey : Bool) :
    CloseResult × CloseEffects :=
  match db with
  | none =>
    (.notFound,
     { db := none, state := st, activeKey := activeKey, published := [],
       enqueuedNotifications := 0 })
  | some a =>
    if a.host_user_id ≠ user_id then
      (.forbidden,
       { db := some a, state := st, activeKey := activeKey, published := [],
         enqueuedNotifications := 0 })
    else
      let a1 := { a with status := "closed", ended_at := some now }
      let st1 := { st.getD {} with status := some "closed" }
      (.ok a.auction_id,
       { db := some a1, state := some st1, activeKey := false, published := [],
         enqueuedNotifications := 0 })

/-! ## Timer close: settlement-message construction -/

/-- A row of the durable user table, as projected by
`TimerManager._fetch_user_map`. -/
structure UserInfo where
  user_id : String
  email : Option String
  name : Option String
  username : Option String
deriving DecidableEq, Repr

/-- The `auction_closed` settlement message enqueued at close. -/
structure AuctionClosedMessage where
  auction_id : String
  title : String
  final_price : ℚ
  winner : Option UserInfo
  losers : List UserInfo
  timestamp : Int
deriving DecidableEq, Repr

/-- Python `list(dict.fromkeys(l))`: deduplicate preserving the first
occurrence of each element. -/
def firstDedup (l : List String) : List String :=
  l.foldl (fun acc x => if x ∈ acc then acc else acc ++ [x]) []

/-- `TimerManager._fetch_user_map`: query the user table restricted to the
given ids and look a row up by user id. -/
def fetchUserMap (users : List UserInfo) (ids : List String) :
    String → Option UserInfo := fun uid =>
  if uid ∈ ids then users.find? fun u => u.user_id = uid else none

/-- The winner id at close: `high_bidder_id` from the state, falling back
to the top leaderboard entry (the "legacy safety net" of
`_handle_auction_end`). -/
def effectiveWinnerId (st : LiveState) (top_bids : List TopBid) : Option String :=
  match st.high_bidder_id with
  | some w => some w
  | none => top_bids.head?.map fun b => b.user_id

/-- The `winner` field of the settlement message: the user-table row when
present, else a minimal record carrying only the user id. -/
def winnerUser (user_map : String → Option UserInfo) (winner_id : Option String) :
    Option UserInfo :=
  winner_id.map fun w =>
    (user_map w).getD { user_id := w, email := none, name := none, username := none }

/-- The `losers` list of the settlement message: the candidate ids that are
not the winner and are present in the user map, in order. -/
def buildLosers (user_map : String → Option UserInfo)
    (winner_user : Option UserInfo) (participant_ids : List String) :
    List UserInfo :=
  participant_ids.filterMap fun pid =>
    if winner_user.any (fun wu => pid == wu.user_id) then none
    else user_map pid

/-- The settlement-message construction inside
`TimerManager._handle_auction_end` (lines 271–369): the final price falls
back from the state to the starting bid; the winner id falls back from
the state to the top leaderboard entry; the candidate recipients are the
deduplicated top-bids bidders (the participants set is never read); the
winner record comes from the user table (or a minimal `user_id`-only
record); the losers are the candidates that are not the winner **and**
are present in the user table. -/
def buildCloseNotification (auction_id title : String) (starting_bid : Option ℚ)
    (st : LiveState) (top_bids : List TopBid) (users : List UserInfo)
    (now : Int) : AuctionClosedMessage :=
  let current_high_bid := st.current_high_bid.getD (starting_bid.getD 0)
  let winner_id := effectiveWinnerId st top_bids
  let participant_ids := firstDedup (top_bids.map fun b => b.user_id)
  let user_ids_to_fetch :=
    firstDedup (participant_ids ++ winner_id.toList)
  let user_map := fetchUserMap users user_ids_to_fetch
  let winner_user := winnerUser user_map winner_id
  { auction_id := auction_id, title := title, final_price := current_high_bid,
    winner := winner_user, losers := buildLosers user_map winner_user participant_ids,
    timestamp := now }

/-- Modelled from the spec: step 7 of the close procedure asks for
"losers=[same shape from participants minus winner]" — the participant
ids with the winner removed. -/
def losersSpec (participants : List String) (winner_id : Option String) :
    List String :=
  participants.filter fun p => winner_id ≠ some p

/-! ## Realtime gateway: `on_join_auction` -/

/-- A session record resolved by `get_connection`. -/
structure ConnInfo where
  user_id : String
  username : String
  auction_id : Option String := none
deriving DecidableEq, Repr

/-- The `joined_auction` snapshot built by `_get_auction_state_for_user`. -/
structure Snapshot where
  auction_id : String
  status : Option String
  current_high_bid : ℚ
  high_bidder_id : Option String
  high_bidder_username : Option String
  participant_count : Nat
  bid_count : Nat
  top_bids : List TopBid
  you_are_winning : Bool
  chat_messages : List String
deriving DecidableEq, Repr

/-- Frames emitted back to sessions by the join handler.  `error` and
`joinedAuction` go to the joining session; `userJoined` is broadcast to
the room excluding the joining session. -/
inductive WsEmit where
  | error (message : String)
  | joinedAuction (snapshot : Snapshot)
  | userJoined (user_id username : String) (participant_count : Nat)
deriving DecidableEq, Repr

/-- SADD of the joining user into the `auction:{id}:users` set (a set add:
no duplicate member). -/
def joinParticipants (user_id : String) (participants : List String) :
    List String :=
  if user_id ∈ participants then participants else participants ++ [user_id]

/-- `ConnectionHandler.on_join_auction`: reject only an unauthenticated
connection or a missing `auction_id`.  Otherwise — without checking that
any live state exists — SADD the user into the participants set, HSET
`participant_count` to the set cardinality (creating the hash when
missing), build the snapshot from the (possibly empty) state plus the
top-3 leaderboard and the last 50 chat messages, emit `joined_auction`
to the caller and broadcast `user_joined` to the rest of the room.
(Socket-room membership and the connection-mapping hashes are not
modelled.) -/
def onJoinAuction (conn : Option ConnInfo) (data_auction_id : Option String)
    (st : Option LiveState) (participants : List String) (z : ZSet)
    (chat : List String) :
    List WsEmit × List String × Option LiveState :=
  match conn with
  | none => ([.error "Not authenticated"], participants, st)
  | some c =>
    match data_auction_id with
    | none => ([.error "Missing auction_id"], participants, st)
    | some auction_id =>
      let participants1 := joinParticipants c.user_id participants
      let participant_count := participants1.length
      let st1 :=
        { st.getD {} with participant_count := some participant_count }
      let snapshot : Snapshot :=
        { auction_id := auction_id
          status := st1.status
          current_high_bid := st1.current_high_bid.getD 0
          high_bidder_id := st1.high_bidder_id
          high_bidder_username := st1.high_bidder_username
          participant_count := st1.participant_count.getD 0
          bid_count := st1.bid_count.getD 0
          top_bids := getTopBids z 3
          you_are_winning := st1.high_bidder_id == some c.user_id
          chat_messages := chat.drop (chat.length - 50) }
      ([.joinedAuction snapshot,
        .userJoined c.user_id c.username participant_count],
       participants1, some st1)

end LiveAuction

namespace LiveAuction

/-- C1: semantics of the atomic bid-commit script.  On a hash whose
`current_high_bid` field holds `h`: a strictly greater amount commits all
four bid fields, increments `bid_count` by exactly one and returns 1
(ACCEPTED); otherwise the script returns 0 (OUTBID) and the hash is
unchanged in every field. -/
theorem bid_script_commit_semantics (st : LiveState) (h amount : ℚ)
    (user_id username : String) (ts : Int)
    (hhigh : st.current_high_bid = some h) :
    (h < amount →
      bidComparisonScript st amount user_id username ts =
        { state :=
            { st with
              current_high_bid := some amount
              high_bidder_id := some user_id
              high_bidder_username := some username
              last_bid_time := some ts
              bid_count := some (st.bid_count.getD 0 + 1) }
          ret := 1 }) ∧
    (amount ≤ h →
      bidComparisonScript st amount user_id username ts =
        { state := st, ret := 0 }) := by
  constructor
  · intro hlt
    unfold bidComparisonScript
    rw [hhigh]
    simp only [Option.getD_some]
    rw [if_pos hlt]
  · intro hle
    unfold bidComparisonScript
    rw [hhigh]
    simp only [Option.getD_some]
    rw [if_neg (not_lt.mpr hle)]

/-- Witness for `bid_script_commit_semantics` at a concrete hash. -/
theorem bid_script_commit_semantics_witness :
    (bidComparisonScript
        { status := some "live", current_high_bid := some 100, bid_count := some 4 }
        150 "u1" "alice" 77 =
      { state :=
          { status := some "live", current_high_bid := some 150,
            high_bidder_id := some "u1", high_bidder_username := some "alice",
            last_bid_time := some 77, bid_count := some 5 }
        ret := 1 }) ∧
    (bidComparisonScript
        { status := some "live", current_high_bid := some 100, bid_count := some 4 }
        90 "u1" "alice" 77 =
      { state := { status := some "live", current_high_bid := some 100, bid_count := some 4 }
        ret := 0 }) := by
  refine ⟨?_, ?_⟩
  · exact (bid_script_commit_semantics
      { status := some "live", current_high_bid := some 100, bid_count := some 4 }
      100 150 "u1" "alice" 77 rfl).1 (by norm_num)
  · exact (bid_script_commit_semantics
      { status := some "live", current_high_bid := some 100, bid_count := some 4 }
      100 90 "u1" "alice" 77 rfl).2 (by norm_num)

/-- C10: when the hash has no `current_high_bid` field the script reads the
current high as 0, so any strictly positive amount is committed and the
bid fields (including `bid_count`) are initialized on the hash. -/
theorem bid_script_missing_high_treated_as_zero (st : LiveState) (amount : ℚ)
    (user_id username : String) (ts : Int)
    (hmiss : st.current_high_bid = none) (hpos : 0 < amount) :
    bidComparisonScript st amount user_id username ts =
      { state :=
          { st with
            current_high_bid := some amount
            high_bidder_id := some user_id
            high_bidder_username := some username
            last_bid_time := some ts
            bid_count := some (st.bid_count.getD 0 + 1) }
        ret := 1 } := by
  unfold bidComparisonScript
  rw [hmiss]
  simp only [Option.getD_none]
  rw [if_pos hpos]

/-- Witness for `bid_script_missing_high_treated_as_zero` on a hash that
exists but carries no bid fields at all. -/
theorem bid_script_missing_high_witness :
    bidComparisonScript { status := some "live" } 1 "u2" "bob" 5 =
      { state :=
          { status := some "live", current_high_bid := some 1,
            high_bidder_id := some "u2", high_bidder_username := some "bob",
            last_bid_time := some 5, bid_count := some 1 }
        ret := 1 } :=
  bid_script_missing_high_treated_as_zero { status := some "live" } 1 "u2" "bob" 5 rfl
    (by norm_num)

end LiveAuction

namespace LiveAuction

/-! ## Shared helper lemmas -/

/-- The script accepts any amount strictly above the stored (or missing)
current high. -/
theorem bidScript_gt (st : LiveState) (a : ℚ) (uid un : String) (ts : Int)
    (h1 : st.current_high_bid.getD 0 < a) :
    bidComparisonScript st a uid un ts =
      { state :=
          { st with
            current_high_bid := some a
            high_bidder_id := some uid
            high_bidder_username := some un
            last_bid_time := some ts
            bid_count := some (st.bid_count.getD 0 + 1) }
        ret := 1 } := by
  unfold bidComparisonScript
  rw [if_pos h1]

/-- The script rejects any amount at or below the stored current high and
leaves the hash unchanged. -/
theorem bidScript_le (st : LiveState) (a : ℚ) (uid un : String) (ts : Int)
    (h1 : a ≤ st.current_high_bid.getD 0) :
    bidComparisonScript st a uid un ts = { state := st, ret := 0 } := by
  unfold bidComparisonScript
  rw [if_neg (not_lt.mpr h1)]

/-- `_handle_anti_snipe` keeps the anti-snipe count at or below the
configured maximum. -/
theorem antiSnipe_count_cap (s : Settings) (fail : Bool) (aid : String) (et : Int)
    (st : LiveState) (ek : Option Int)
    (hc : st.anti_snipe_count.getD 0 ≤ s.max_anti_snipe_extensions) :
    (handleAntiSnipe s fail aid et st ek).2.1.anti_snipe_count.getD 0 ≤
      s.max_anti_snipe_extensions := by
  unfold handleAntiSnipe
  by_cases hf : fail
  · simp only [hf, if_true]
    exact hc
  · simp only [hf, if_false, Bool.false_eq_true]
    by_cases hmax : st.anti_snipe_count.getD 0 ≥ s.max_anti_snipe_extensions
    · simp only [hmax, if_true, ge_iff_le]
      exact hc
    · simp only [hmax, if_false]
      simp only [Option.getD_some]
      omega

/-- `_handle_anti_snipe` never touches `current_high_bid`. -/
theorem antiSnipe_preserves_high (s : Settings) (fail : Bool) (aid : String)
    (et : Int) (st : LiveState) (ek : Option Int) :
    (handleAntiSnipe s fail aid et st ek).2.1.current_high_bid =
      st.current_high_bid := by
  unfold handleAntiSnipe
  by_cases hf : fail
  · simp [hf]
  · simp only [hf, if_false, Bool.false_eq_true]
    by_cases hmax : st.anti_snipe_count.getD 0 ≥ s.max_anti_snipe_extensions
    · simp [hmax]
    · simp [hmax]

/-- The two anti-snipe outcomes of an accepted in-threshold bid: extension
with count+1 below the cap, nothing at the cap. -/
theorem anti_snipe_extension_cases (s : Settings) (aid uid uname : String)
    (amount h : ℚ) (env : BidEnv) (st : LiveState) (et : Int) (c : Nat)
    (hstate : env.auctionState = some st)
    (hlive : st.status = some "live")
    (hhost : (st.host_user_id.orElse fun _ => env.dbHostUserId) ≠ some uid)
    (hend : env.endTimeKey = some et)
    (htime : 0 < et - env.now)
    (hhigh : st.current_high_bid = some h)
    (hmin : ¬ amount < h + s.minimum_bid_increment)
    (hgt : h < amount)
    (hcount : st.anti_snipe_count = some c)
    (hthresh : et - env.now < s.anti_snipe_threshold * 1000) :
    (c < s.max_anti_snipe_extensions →
      ∃ stf, (processBid s noFaults aid uid uname amount env).2.state = some stf ∧
        stf.anti_snipe_count = some (c + 1) ∧
        stf.end_time = some (et + s.anti_snipe_extension * 1000) ∧
        (processBid s noFaults aid uid uname amount env).2.endTimeKey =
          some (et + s.anti_snipe_extension * 1000) ∧
        (processBid s noFaults aid uid uname amount env).2.published =
          [(Channel.timer aid,
            Message.antiSnipe aid (et + s.anti_snipe_extension * 1000)
              (s.anti_snipe_extension * 1000) (c + 1) s.max_anti_snipe_extensions),
           (Channel.events aid,
            Message.bid aid uid uname amount env.now true true)] ∧
        ∃ r, (processBid s noFaults aid uid uname amount env).1 = .reply r ∧
          r.status = "success") ∧
    (c = s.max_anti_snipe_extensions →
      ∃ stf, (processBid s noFaults aid uid uname amount env).2.state = some stf ∧
        stf.anti_snipe_count = some c ∧
        (processBid s noFaults aid uid uname amount env).2.endTimeKey = some et ∧
        (processBid s noFaults aid uid uname amount env).2.published =
          [(Channel.events aid,
            Message.bid aid uid uname amount env.now true false)] ∧
        ∃ r, (processBid s noFaults aid uid uname amount env).1 = .reply r ∧
          r.status = "success") := by
  have htime' : ¬ (env.endTimeKey.getD 0 - env.now ≤ 0) := by
    rw [hend]; simpa using htime
  constructor
  · intro hlt
    unfold processBid
    rw [hstate]
    simp only [hlive, ne_eq, reduceCtorEq, not_false_eq_true, not_true_eq_false,
      if_false, if_true, hhost, htime', hhigh, Option.getD_some]
    rw [if_neg hmin]
    rw [bidScript_gt _ _ _ _ _ (by simp only [Option.getD_some]; linarith)]
    simp only [noFaults, Bool.false_eq_true, if_false, reduceCtorEq, hend,
      Option.getD_some]
    rw [if_pos hthresh]
    unfold handleAntiSnipe
    simp only [Bool.false_eq_true, if_false, hcount, Option.getD_some]
    rw [if_neg (by omega)]
    exact ⟨_, rfl, rfl, rfl, rfl, rfl, _, rfl, rfl⟩
  · intro hceq
    unfold processBid
    rw [hstate]
    simp only [hlive, ne_eq, reduceCtorEq, not_false_eq_true, not_true_eq_false,
      if_false, if_true, hhost, htime', hhigh, Option.getD_some]
    rw [if_neg hmin]
    rw [bidScript_gt _ _ _ _ _ (by simp only [Option.getD_some]; linarith)]
    simp only [noFaults, Bool.false_eq_true, if_false, reduceCtorEq, hend,
      Option.getD_some]
    rw [if_pos hthresh]
    unfold handleAntiSnipe
    simp only [Bool.false_eq_true, if_false, hcount, Option.getD_some]
    rw [if_pos (by omega)]
    exact ⟨_, rfl, rfl, rfl, rfl, _, rfl, rfl⟩

end LiveAuction

namespace LiveAuction

/-- A row found by `fetchUserMap` carries the id it was looked up under. -/
theorem fetchUserMap_user_id (users : List UserInfo) (ids : List String)
    (pid : String) (u : UserInfo) (h : fetchUserMap users ids pid = some u) :
    u.user_id = pid := by
  unfold fetchUserMap at h
  by_cases hm : pid ∈ ids
  · rw [if_pos hm] at h
    have hp := List.find?_some h
    exact of_decide_eq_true hp
  · rw [if_neg hm] at h
    cases h

/-- The winner record built from a user map carries the winner id. -/
theorem winnerUser_user_id (users : List UserInfo) (ids : List String)
    (w : String) (wu : UserInfo)
    (h : winnerUser (fetchUserMap users ids) (some w) = some wu) :
    wu.user_id = w := by
  unfold winnerUser at h
  rw [Option.map_some'] at h
  cases hm : fetchUserMap users ids w with
  | none =>
    rw [hm] at h
    cases h
    rfl
  | some u =>
    rw [hm] at h
    rw [Option.getD_some] at h
    have hu : u = wu := by injection h
    subst hu
    exact fetchUserMap_user_id users ids w u hm

/-- Mapping the user ids over a guarded `filterMap` lookup equals filtering
the id list by the guard and the map's domain. -/
theorem filterMap_guard_map (umap : String → Option UserInfo)
    (humap : ∀ pid u, umap pid = some u → u.user_id = pid)
    (P : String → Bool) (l : List String) :
    ((l.filterMap fun pid => if P pid then none else umap pid).map fun u => u.user_id)
      = l.filter fun p => !P p && (umap p).isSome := by
  induction l with
  | nil => rfl
  | cons x xs ih =>
    cases hp : P x with
    | true =>
      simp only [List.filterMap_cons, hp, if_true, List.filter_cons,
        Bool.not_true, Bool.false_and, Bool.false_eq_true, if_false]
      exact ih
    | false =>
      cases hum : umap x with
      | none =>
        simp only [List.filterMap_cons, hp, Bool.false_eq_true, if_false, hum,
          List.filter_cons, Bool.not_false, Bool.true_and, Option.isSome_none]
        exact ih
      | some u =>
        simp only [List.filterMap_cons, hp, Bool.false_eq_true, if_false, hum,
          List.filter_cons, Bool.not_false, Bool.true_and, Option.isSome_some,
          if_true, List.map_cons, humap x u hum]
        rw [ih]

/-- The ids of the built losers list are the candidate ids minus the winner,
restricted to ids present in the user table. -/
theorem buildLosers_map_user_id (users : List UserInfo) (ids : List String)
    (wid : Option String) (l : List String) :
    ((buildLosers (fetchUserMap users ids)
        (winnerUser (fetchUserMap users ids) wid) l).map fun u => u.user_id) =
      (losersSpec l wid).filter fun p => (fetchUserMap users ids p).isSome := by
  unfold buildLosers losersSpec
  rw [filterMap_guard_map (fetchUserMap users ids)
    (fun pid u h => fetchUserMap_user_id users ids pid u h)]
  rw [List.filter_filter]
  apply List.filter_congr
  intro p _
  cases hw : wid with
  | none =>
    unfold winnerUser
    simp
  | some w =>
    cases hwu : winnerUser (fetchUserMap users ids) (some w) with
    | none =>
      unfold winnerUser at hwu
      rw [Option.map_some'] at hwu
      cases hwu
    | some wu =>
      have huid := winnerUser_user_id users ids w wu hwu
      simp only [hwu, Option.any_some, huid, ne_eq, Option.some_inj]
      cases hpw : (p == w) with
      | true =>
        have hwp : w = p := (of_decide_eq_true hpw).symm
        simp [hwp]
      | false =>
        have hne : ¬ (p = w) := of_decide_eq_false hpw
        have hwp : ¬ (w = p) := fun hh => hne hh.symm
        simp [hwp]

/-- Every member of the built losers list is the user table's row for its
own id. -/
theorem buildLosers_mem (umap : String → Option UserInfo)
    (humap : ∀ pid u, umap pid = some u → u.user_id = pid)
    (wu : Option UserInfo) (l : List String) :
    ∀ u ∈ buildLosers umap wu l, umap u.user_id = some u := by
  intro u hu
  unfold buildLosers at hu
  rw [List.mem_filterMap] at hu
  obtain ⟨pid, _, hf⟩ := hu
  by_cases hc : (wu.any fun x => pid == x.user_id) = true
  · rw [if_pos hc] at hf
    cases hf
  · rw [if_neg hc] at hf
    rw [humap pid u hf]
    exact hf

/-- ZADD keeps the set sorted in ZSET order. -/
theorem sorted_zadd (z : ZSet) (m : String) (s : ℚ) :
    List.Sorted zLe (zadd z m s) :=
  List.sorted_insertionSort zLe _

/-- `add_top_bid` keeps the set sorted in ZSET order. -/
theorem sorted_addTopBid (z : ZSet) (u n : String) (a : ℚ) :
    List.Sorted zLe (addTopBid z u n a) := by
  unfold addTopBid
  dsimp only
  split
  · exact (sorted_zadd z _ a).sublist (List.drop_sublist _ _)
  · exact sorted_zadd z _ a

/-- One `add_top_bid` always leaves at most three entries. -/
theorem length_addTopBid_le (z : ZSet) (u n : String) (a : ℚ) :
    (addTopBid z u n a).length ≤ 3 := by
  unfold addTopBid
  dsimp only
  split
  next h =>
    rw [List.length_drop]
    omega
  next h =>
    omega

/-- Any sequence of `add_top_bid` calls from the empty set leaves at most
three entries. -/
theorem foldl_addTopBid_length_le (ops : List (String × String × ℚ)) :
    (ops.foldl (fun z o => addTopBid z o.1 o.2.1 o.2.2) ([] : ZSet)).length ≤ 3 := by
  suffices h : ∀ z : ZSet, z.length ≤ 3 →
      (ops.foldl (fun z o => addTopBid z o.1 o.2.1 o.2.2) z).length ≤ 3 by
    exact h [] (by simp)
  induction ops with
  | nil => intro z hz; exact hz
  | cons o os ih =>
    intro z _
    exact ih _ (length_addTopBid_le z o.1 o.2.1 o.2.2)

/-- Any sequence of `add_top_bid` calls from the empty set leaves the set
sorted. -/
theorem foldl_addTopBid_sorted (ops : List (String × String × ℚ)) :
    List.Sorted zLe (ops.foldl (fun z o => addTopBid z o.1 o.2.1 o.2.2) ([] : ZSet)) := by
  suffices h : ∀ z : ZSet, List.Sorted zLe z →
      List.Sorted zLe (ops.foldl (fun z o => addTopBid z o.1 o.2.1 o.2.2) z) by
    exact h [] List.sorted_nil
  induction ops with
  | nil => intro z hz; exact hz
  | cons o os ih =>
    intro z _
    exact ih _ (sorted_addTopBid z o.1 o.2.1 o.2.2)

/-- `get_top_bids` on a ZSET-sorted set lists amounts in descending order. -/
theorem getTopBids_amount_antitone (z : ZSet) (hz : List.Sorted zLe z) (k : Nat) :
    List.Pairwise (fun a b : TopBid => b.amount ≤ a.amount) (getTopBids z k) := by
  unfold getTopBids
  apply List.Pairwise.map
  · intro p q hpq
    exact hpq
  · have hrev : List.Pairwise (fun p q : String × ℚ => q.2 ≤ p.2) z.reverse := by
      rw [List.pairwise_reverse]
      refine hz.imp ?_
      intro p q hle
      rcases hle with h1 | ⟨h1, _⟩
      · exact le_of_lt h1
      · exact le_of_eq h1
    exact hrev.sublist (List.take_sublist _ _)

/-- The entries `add_top_bid` trims away score at or below every kept
entry. -/
theorem addTopBid_drops_only_lowest (z : ZSet) (u n : String) (a : ℚ) :
    ∀ p ∈ zadd z (u ++ ":" ++ n) a, p ∉ addTopBid z u n a →
      ∀ q ∈ addTopBid z u n a, p.2 ≤ q.2 := by
  intro p hp hnp q hq
  unfold addTopBid at hnp hq
  dsimp only at hnp hq
  by_cases hc : (zadd z (u ++ ":" ++ n) a).length > 3
  · rw [if_pos hc] at hnp hq
    have hp2 : p ∈
        (zadd z (u ++ ":" ++ n) a).take ((zadd z (u ++ ":" ++ n) a).length - 3) ++
        (zadd z (u ++ ":" ++ n) a).drop ((zadd z (u ++ ":" ++ n) a).length - 3) := by
      rw [List.take_append_drop]
      exact hp
    rcases List.mem_append.mp hp2 with htake | hdrop
    · have hle := (sorted_zadd z (u ++ ":" ++ n) a).rel_of_mem_take_of_mem_drop htake hq
      rcases hle with h1 | ⟨h1, _⟩
      · exact le_of_lt h1
      · exact le_of_eq h1
    · exact absurd hdrop hnp
  · rw [if_neg hc] at hnp
    exact absurd hp hnp

end LiveAuction

namespace LiveAuction

/-! ## Claim theorems -/

/-- C2: for a bid on a live auction by a non-host before the end time with
current high `h` and positive configured minimum increment: an amount
strictly below `h + increment` fails with `InvalidBid` carrying the
required minimum, and an amount of exactly `h + increment` passes
validation and is accepted by the atomic commit. -/
theorem bid_minimum_increment_boundary (s : Settings)
    (auction_id user_id username : String) (amount h : ℚ)
    (env : BidEnv) (st : LiveState)
    (hstate : env.auctionState = some st)
    (hlive : st.status = some "live")
    (hhost : (st.host_user_id.orElse fun _ => env.dbHostUserId) ≠ some user_id)
    (htime : 0 < env.endTimeKey.getD 0 - env.now)
    (hhigh : st.current_high_bid = some h)
    (hm : 0 < s.minimum_bid_increment) :
    (amount < h + s.minimum_bid_increment →
      (processBid s noFaults auction_id user_id username amount env).1 =
        .error (.invalidBid (h + s.minimum_bid_increment))) ∧
    (amount = h + s.minimum_bid_increment →
      ∃ r, (processBid s noFaults auction_id user_id username amount env).1 = .reply r ∧
        r.status = "success" ∧ r.is_highest = true ∧ r.current_high_bid = amount) := by
  have htime' : ¬ (env.endTimeKey.getD 0 - env.now ≤ 0) := by omega
  constructor
  · intro hlt
    unfold processBid
    rw [hstate]
    simp only [hlive, ne_eq, reduceCtorEq, not_false_eq_true, not_true_eq_false,
      if_false, if_true, hhost, htime', hhigh, Option.getD_some]
    rw [if_pos hlt]
  · intro heq
    unfold processBid
    rw [hstate]
    simp only [hlive, ne_eq, reduceCtorEq, not_false_eq_true, not_true_eq_false,
      if_false, if_true, hhost, htime', hhigh, Option.getD_some]
    rw [if_neg (by rw [heq]; exact lt_irrefl _)]
    rw [bidScript_gt _ _ _ _ _ (by simp only [Option.getD_some]; linarith)]
    simp only [noFaults, Bool.false_eq_true, if_false, reduceCtorEq]
    exact ⟨_, rfl, rfl, rfl, rfl⟩

/-- Witness for `bid_minimum_increment_boundary` at the default increment:
a bid of 150 over a high of 100 is rejected naming the 200 minimum, and a
bid of exactly the minimum succeeds. -/
theorem bid_minimum_increment_boundary_witness :
    ((processBid defaultSettings noFaults "a1" "u1" "alice" 150
        { auctionState := some
            { status := some "live", host_user_id := some "h",
              current_high_bid := some 100 }
          endTimeKey := some 100000
          topBids := []
          dbHostUserId := none
          now := 0 }).1 =
      .error (.invalidBid (100 + defaultSettings.minimum_bid_increment))) ∧
    (∃ r, (processBid defaultSettings noFaults "a1" "u1" "alice"
        (100 + defaultSettings.minimum_bid_increment)
        { auctionState := some
            { status := some "live", host_user_id := some "h",
              current_high_bid := some 100 }
          endTimeKey := some 100000
          topBids := []
          dbHostUserId := none
          now := 0 }).1 = .reply r ∧
      r.status = "success" ∧ r.is_highest = true ∧
      r.current_high_bid = 100 + defaultSettings.minimum_bid_increment) :=
  ⟨(bid_minimum_increment_boundary defaultSettings "a1" "u1" "alice" 150 100
      _ _ rfl rfl (by decide) (by decide) rfl
      (by norm_num [defaultSettings])).1 (by norm_num [defaultSettings]),
   (bid_minimum_increment_boundary defaultSettings "a1" "u1" "alice"
      (100 + defaultSettings.minimum_bid_increment) 100
      _ _ rfl rfl (by decide) (by decide) rfl
      (by norm_num [defaultSettings])).2 rfl⟩

/-- C3: the anti-snipe count never exceeds the configured maximum; an
accepted bid inside the threshold with the count below the maximum
increments the count by exactly one, advances the end time (dedicated key
and state field) by the extension, and publishes an `anti_snipe` event on
the timer channel; at the maximum nothing is extended and the bid still
succeeds. -/
theorem anti_snipe_cap_and_extension (s : Settings) (aid uid uname : String)
    (amount h : ℚ) (env : BidEnv) (st : LiveState) (et : Int) (c : Nat)
    (hstate : env.auctionState = some st)
    (hlive : st.status = some "live")
    (hhost : (st.host_user_id.orElse fun _ => env.dbHostUserId) ≠ some uid)
    (hend : env.endTimeKey = some et)
    (htime : 0 < et - env.now)
    (hhigh : st.current_high_bid = some h)
    (hmin : ¬ amount < h + s.minimum_bid_increment)
    (hgt : h < amount)
    (hcount : st.anti_snipe_count = some c)
    (hthresh : et - env.now < s.anti_snipe_threshold * 1000) :
    (∀ (fail : Bool) (aid2 : String) (et2 : Int) (st2 : LiveState) (ek2 : Option Int),
      st2.anti_snipe_count.getD 0 ≤ s.max_anti_snipe_extensions →
      (handleAntiSnipe s fail aid2 et2 st2 ek2).2.1.anti_snipe_count.getD 0 ≤
        s.max_anti_snipe_extensions) ∧
    (c < s.max_anti_snipe_extensions →
      ∃ stf, (processBid s noFaults aid uid uname amount env).2.state = some stf ∧
        stf.anti_snipe_count = some (c + 1) ∧
        stf.end_time = some (et + s.anti_snipe_extension * 1000) ∧
        (processBid s noFaults aid uid uname amount env).2.endTimeKey =
          some (et + s.anti_snipe_extension * 1000) ∧
        (processBid s noFaults aid uid uname amount env).2.published =
          [(Channel.timer aid,
            Message.antiSnipe aid (et + s.anti_snipe_extension * 1000)
              (s.anti_snipe_extension * 1000) (c + 1) s.max_anti_snipe_extensions),
           (Channel.events aid,
            Message.bid aid uid uname amount env.now true true)] ∧
        ∃ r, (processBid s noFaults aid uid uname amount env).1 = .reply r ∧
          r.status = "success") ∧
    (c = s.max_anti_snipe_extensions →
      ∃ stf, (processBid s noFaults aid uid uname amount env).2.state = some stf ∧
        stf.anti_snipe_count = some c ∧
        (processBid s noFaults aid uid uname amount env).2.endTimeKey = some et ∧
        (processBid s noFaults aid uid uname amount env).2.published =
          [(Channel.events aid,
            Message.bid aid uid uname amount env.now true false)] ∧
        ∃ r, (processBid s noFaults aid uid uname amount env).1 = .reply r ∧
          r.status = "success") := by
  refine ⟨fun fail aid2 et2 st2 ek2 hc =>
    antiSnipe_count_cap s fail aid2 et2 st2 ek2 hc, ?_, ?_⟩
  · exact (anti_snipe_extension_cases s aid uid uname amount h env st et c
      hstate hlive hhost hend htime hhigh hmin hgt hcount hthresh).1
  · exact (anti_snipe_extension_cases s aid uid uname amount h env st et c
      hstate hlive hhost hend htime hhigh hmin hgt hcount hthresh).2

/-- Witness for `anti_snipe_cap_and_extension`: an accepted bid with 20 s
left and no prior extensions extends the end time to 50000 ms, sets the
count to 1 and publishes the anti-snipe event. -/
theorem anti_snipe_cap_and_extension_witness :
    ∃ stf,
      (processBid defaultSettings noFaults "a1" "u1" "alice" 200
        { auctionState := some
            { status := some "live", host_user_id := some "h",
              current_high_bid := some 100, anti_snipe_count := some 0 }
          endTimeKey := some 20000
          topBids := []
          dbHostUserId := none
          now := 0 }).2.state = some stf ∧
      stf.anti_snipe_count = some 1 ∧
      stf.end_time = some 50000 ∧
      (processBid defaultSettings noFaults "a1" "u1" "alice" 200
        { auctionState := some
            { status := some "live", host_user_id := some "h",
              current_high_bid := some 100, anti_snipe_count := some 0 }
          endTimeKey := some 20000
          topBids := []
          dbHostUserId := none
          now := 0 }).2.endTimeKey = some 50000 ∧
      (processBid defaultSettings noFaults "a1" "u1" "alice" 200
        { auctionState := some
            { status := some "live", host_user_id := some "h",
              current_high_bid := some 100, anti_snipe_count := some 0 }
          endTimeKey := some 20000
          topBids := []
          dbHostUserId := none
          now := 0 }).2.published =
        [(Channel.timer "a1", Message.antiSnipe "a1" 50000 30000 1 5),
         (Channel.events "a1", Message.bid "a1" "u1" "alice" 200 0 true true)] ∧
      ∃ r, (processBid defaultSettings noFaults "a1" "u1" "alice" 200
        { auctionState := some
            { status := some "live", host_user_id := some "h",
              current_high_bid := some 100, anti_snipe_count := some 0 }
          endTimeKey := some 20000
          topBids := []
          dbHostUserId := none
          now := 0 }).1 = .reply r ∧ r.status = "success" :=
  (anti_snipe_cap_and_extension defaultSettings "a1" "u1" "alice" 200 100
    _ _ 20000 0 rfl rfl (by decide) rfl (by decide) rfl
    (by norm_num [defaultSettings]) (by norm_num) rfl
    (by norm_num [defaultSettings])).2.1 (by norm_num [defaultSettings])

end LiveAuction

namespace LiveAuction

/-- C4 (amended): a host bid is rejected with `Forbidden` exactly when the
live state's status is `live` (including a time-expired auction, since the
host check precedes the time check), with no publish, no enqueue and no
live-state change beyond caching `host_user_id`; when the status is not
`live` the host's bid instead fails with `AuctionClosed`, equally without
side effects. -/
theorem host_bid_rejection (s : Settings) (f : Faults) (aid uid uname : String)
    (amount : ℚ) (env : BidEnv) (st : LiveState)
    (hstate : env.auctionState = some st)
    (hhost : (st.host_user_id.orElse fun _ => env.dbHostUserId) = some uid) :
    (st.status = some "live" →
      processBid s f aid uid uname amount env =
        (.error .forbidden,
         { state := some { st with host_user_id := some uid }
           endTimeKey := env.endTimeKey
           topBids := env.topBids
           published := []
           enqueued := [] })) ∧
    (st.status ≠ some "live" →
      processBid s f aid uid uname amount env =
        (.error .auctionClosed,
         { state := some st
           endTimeKey := env.endTimeKey
           topBids := env.topBids
           published := []
           enqueued := [] })) := by
  constructor
  · intro hlive
    unfold processBid
    rw [hstate]
    simp only [hlive, ne_eq, reduceCtorEq, not_false_eq_true, not_true_eq_false,
      if_false, if_true, hhost]
  · intro hnl
    unfold processBid
    rw [hstate]
    simp only [ne_eq, hnl, not_false_eq_true, if_true]

/-- Witness for `host_bid_rejection`: the host of a live auction is
rejected with `Forbidden` and nothing is published or enqueued. -/
theorem host_bid_rejection_witness :
    processBid defaultSettings noFaults "a1" "h" "host" 300
        { auctionState := some { status := some "live", host_user_id := some "h" }
          endTimeKey := some 100000
          topBids := []
          dbHostUserId := none
          now := 0 } =
      (.error .forbidden,
       { state := some { status := some "live", host_user_id := some "h" }
         endTimeKey := some 100000
         topBids := []
         published := []
         enqueued := [] }) :=
  (host_bid_rejection defaultSettings noFaults "a1" "h" "host" 300
    { auctionState := some { status := some "live", host_user_id := some "h" }
      endTimeKey := some 100000
      topBids := []
      dbHostUserId := none
      now := 0 }
    { status := some "live", host_user_id := some "h" } rfl (by decide)).1 rfl

/-- Counterexample to C4 as stated: a host bidding on an auction whose live
state is `closed` gets `AuctionClosed`, not `Forbidden` (the status check
precedes the host check); and when the state lacks `host_user_id`, the
`Forbidden` path does mutate the live state by caching the host id from
the durable record. -/
theorem host_bid_rejection_counterexample :
    ((processBid defaultSettings noFaults "a1" "h" "host" 300
        { auctionState := some
            { status := some "closed", host_user_id := some "h",
              current_high_bid := some 100 }
          endTimeKey := some 100000
          topBids := []
          dbHostUserId := some "h"
          now := 0 }).1 = .error .auctionClosed) ∧
    ((processBid defaultSettings noFaults "a1" "h" "host" 300
        { auctionState := some { status := some "live", current_high_bid := some 100 }
          endTimeKey := some 100000
          topBids := []
          dbHostUserId := some "h"
          now := 0 }).1 = .error .forbidden ∧
      (processBid defaultSettings noFaults "a1" "h" "host" 300
        { auctionState := some { status := some "live", current_high_bid := some 100 }
          endTimeKey := some 100000
          topBids := []
          dbHostUserId := some "h"
          now := 0 }).2.state ≠
        some { status := some "live", current_high_bid := some 100 }) := by
  refine ⟨by decide, by decide, by decide⟩

/-- C5 (amended): manual close publishes nothing and enqueues no settlement
message; it is authorized exactly for the host, and then only sets the
durable row to closed with `ended_at`, deletes the active key and sets
the SSS status to closed — `winner_id`/`winning_bid` are never written;
a non-host gets `Forbidden` with nothing changed and a missing row 404. -/
theorem manual_close_behaviour (uid : String) (now : Int) (db : Option AuctionRow)
    (st : Option LiveState) (active : Bool) :
    ((closeAuction uid now db st active).2.published = [] ∧
      (closeAuction uid now db st active).2.enqueuedNotifications = 0) ∧
    (db = none → (closeAuction uid now db st active).1 = .notFound) ∧
    (∀ a, db = some a →
      (((closeAuction uid now db st active).1 = .ok a.auction_id ↔
          a.host_user_id = uid) ∧
       ((closeAuction uid now db st active).2.db.map fun r => r.winner_id) =
          some a.winner_id ∧
       (a.host_user_id = uid →
          closeAuction uid now db st active =
            (.ok a.auction_id,
             { db := some { a with status := "closed", ended_at := some now }
               state := some { st.getD {} with status := some "closed" }
               activeKey := false
               published := []
               enqueuedNotifications := 0 })) ∧
       (a.host_user_id ≠ uid →
          closeAuction uid now db st active =
            (.forbidden,
             { db := some a
               state := st
               activeKey := active
               published := []
               enqueuedNotifications := 0 })))) := by
  refine ⟨?_, ?_, ?_⟩
  · unfold closeAuction
    cases db with
    | none => exact ⟨rfl, rfl⟩
    | some a =>
      by_cases hh : a.host_user_id = uid <;> simp [hh]
  · intro hdb
    subst hdb
    rfl
  · intro a hdb
    subst hdb
    by_cases hh : a.host_user_id = uid
    · refine ⟨?_, ?_, fun _ => ?_, fun hc => absurd hh hc⟩
      · unfold closeAuction
        simp [hh]
      · unfold closeAuction
        simp [hh]
      · unfold closeAuction
        simp [hh]
    · refine ⟨?_, ?_, fun hc => absurd hc hh, fun _ => ?_⟩
      · unfold closeAuction
        simp [hh]
      · unfold closeAuction
        simp [hh]
      · unfold closeAuction
        simp [hh]

/-- Counterexample to C5 as stated: a host-initiated close of a live
auction with a high bidder publishes no `auction_end` or timer event,
enqueues no settlement message, and leaves `winner_id` unset. -/
theorem manual_close_counterexample :
    (closeAuction "h" 42
        (some { auction_id := "a1", host_user_id := "h", title := "T",
                status := "live", starting_bid := some 10, ended_at := none,
                winner_id := none, winning_bid := none })
        (some { status := some "live", current_high_bid := some 100,
                high_bidder_id := some "u1", high_bidder_username := some "alice" })
        true).2.published = [] ∧
    (closeAuction "h" 42
        (some { auction_id := "a1", host_user_id := "h", title := "T",
                status := "live", starting_bid := some 10, ended_at := none,
                winner_id := none, winning_bid := none })
        (some { status := some "live", current_high_bid := some 100,
                high_bidder_id := some "u1", high_bidder_username := some "alice" })
        true).2.enqueuedNotifications = 0 ∧
    ((closeAuction "h" 42
        (some { auction_id := "a1", host_user_id := "h", title := "T",
                status := "live", starting_bid := some 10, ended_at := none,
                winner_id := none, winning_bid := none })
        (some { status := some "live", current_high_bid := some 100,
                high_bidder_id := some "u1", high_bidder_username := some "alice" })
        true).2.db.map fun r => r.winner_id) = some none := by
  refine ⟨by decide, by decide, by decide⟩

end LiveAuction

namespace LiveAuction

/-- C6 (amended): after the atomic commit accepts a bid, failures of the
anti-snipe step and of the persistence enqueue are swallowed — the call
still returns the success reply; but a failure of the leaderboard upsert
or of the bid-event publish propagates out of `process_bid` as an
exception, even though the committed bid stands in the live state. -/
theorem post_commit_fault_propagation (s : Settings) (aid uid uname : String)
    (amount h : ℚ) (env : BidEnv) (st : LiveState)
    (hstate : env.auctionState = some st)
    (hlive : st.status = some "live")
    (hhost : (st.host_user_id.orElse fun _ => env.dbHostUserId) ≠ some uid)
    (htime : 0 < env.endTimeKey.getD 0 - env.now)
    (hhigh : st.current_high_bid = some h)
    (hmin : ¬ amount < h + s.minimum_bid_increment)
    (hgt : h < amount) :
    (∀ f : Faults, f.leaderboard = false → f.publishEvent = false →
      ∃ r, (processBid s f aid uid uname amount env).1 = .reply r ∧
        r.status = "success" ∧ r.is_highest = true) ∧
    (∀ f : Faults, f.leaderboard = true →
      (processBid s f aid uid uname amount env).1 = .exception ∧
      ∃ stf, (processBid s f aid uid uname amount env).2.state = some stf ∧
        stf.current_high_bid = some amount) ∧
    (∀ f : Faults, f.leaderboard = false → f.publishEvent = true →
      (processBid s f aid uid uname amount env).1 = .exception ∧
      ∃ stf, (processBid s f aid uid uname amount env).2.state = some stf ∧
        stf.current_high_bid = some amount) := by
  have htime' : ¬ (env.endTimeKey.getD 0 - env.now ≤ 0) := by omega
  refine ⟨?_, ?_, ?_⟩
  · intro f hlb hpe
    unfold processBid
    rw [hstate]
    simp only [hlive, ne_eq, reduceCtorEq, not_false_eq_true, not_true_eq_false,
      if_false, if_true, hhost, htime', hhigh, Option.getD_some]
    rw [if_neg hmin]
    rw [bidScript_gt _ _ _ _ _ (by simp only [Option.getD_some]; linarith)]
    simp only [hlb, hpe, Bool.false_eq_true, if_false, reduceCtorEq]
    exact ⟨_, rfl, rfl, rfl⟩
  · intro f hlb
    unfold processBid
    rw [hstate]
    simp only [hlive, ne_eq, reduceCtorEq, not_false_eq_true, not_true_eq_false,
      if_false, if_true, hhost, htime', hhigh, Option.getD_some]
    rw [if_neg hmin]
    rw [bidScript_gt _ _ _ _ _ (by simp only [Option.getD_some]; linarith)]
    simp only [hlb, if_true, reduceCtorEq]
    exact ⟨by trivial, _, rfl, rfl⟩
  · intro f hlb hpe
    unfold processBid
    rw [hstate]
    simp only [hlive, ne_eq, reduceCtorEq, not_false_eq_true, not_true_eq_false,
      if_false, if_true, hhost, htime', hhigh, Option.getD_some]
    rw [if_neg hmin]
    rw [bidScript_gt _ _ _ _ _ (by simp only [Option.getD_some]; linarith)]
    simp only [hlb, hpe, Bool.false_eq_true, if_false, if_true, reduceCtorEq]
    refine ⟨by trivial, ?_⟩
    refine ⟨_, rfl, ?_⟩
    split
    · rw [antiSnipe_preserves_high]
    · rfl

/-- Witness for `post_commit_fault_propagation`: with no injected faults an
accepted bid returns the success reply. -/
theorem post_commit_fault_propagation_witness :
    ∃ r, (processBid defaultSettings noFaults "a1" "u1" "alice" 200
        { auctionState := some
            { status := some "live", host_user_id := some "h",
              current_high_bid := some 100 }
          endTimeKey := some 100000
          topBids := []
          dbHostUserId := none
          now := 0 }).1 = .reply r ∧
      r.status = "success" ∧ r.is_highest = true :=
  (post_commit_fault_propagation defaultSettings "a1" "u1" "alice" 200 100
    { auctionState := some
        { status := some "live", host_user_id := some "h",
          current_high_bid := some 100 }
      endTimeKey := some 100000
      topBids := []
      dbHostUserId := none
      now := 0 }
    { status := some "live", host_user_id := some "h",
      current_high_bid := some 100 }
    rfl rfl (by decide) (by decide) rfl (by norm_num [defaultSettings])
    (by norm_num)).1 noFaults rfl rfl

/-- Counterexample to C6 as stated: an injected failure of the bid-event
publish, or of the leaderboard upsert, makes `process_bid` raise instead
of returning the success reply for the committed bid. -/
theorem post_commit_fault_counterexample :
    ((processBid defaultSettings
        { leaderboard := false, antiSnipe := false, publishEvent := true,
          enqueue := false }
        "a1" "u1" "alice" 200
        { auctionState := some
            { status := some "live", host_user_id := some "h",
              current_high_bid := some 100 }
          endTimeKey := some 100000
          topBids := []
          dbHostUserId := some "h"
          now := 0 }).1 = .exception) ∧
    ((processBid defaultSettings
        { leaderboard := true, antiSnipe := false, publishEvent := false,
          enqueue := false }
        "a1" "u1" "alice" 200
        { auctionState := some
            { status := some "live", host_user_id := some "h",
              current_high_bid := some 100 }
          endTimeKey := some 100000
          topBids := []
          dbHostUserId := some "h"
          now := 0 }).1 = .exception) := by
  constructor
  · norm_num [processBid, bidComparisonScript, defaultSettings]
    decide
  · norm_num [processBid, bidComparisonScript, defaultSettings]
    decide

end LiveAuction

namespace LiveAuction

/-- C7 (amended): the `auction_closed` settlement message carries the
auction id, title, final price (state value with starting-bid fallback)
and timestamp; its winner is the effective winner (state high bidder,
else leaderboard top); and its losers are the deduplicated top-bids
bidders minus the winner, restricted to those present in the user table —
not the auction's connected-participants set, which the close path never
reads. -/
theorem settlement_message_contents (aid title : String) (sb : Option ℚ)
    (st : LiveState) (tb : List TopBid) (users : List UserInfo) (now : Int) :
    (buildCloseNotification aid title sb st tb users now).auction_id = aid ∧
    (buildCloseNotification aid title sb st tb users now).title = title ∧
    (buildCloseNotification aid title sb st tb users now).timestamp = now ∧
    (buildCloseNotification aid title sb st tb users now).final_price =
      st.current_high_bid.getD (sb.getD 0) ∧
    ((buildCloseNotification aid title sb st tb users now).winner.map
        fun u => u.user_id) = effectiveWinnerId st tb ∧
    ((buildCloseNotification aid title sb st tb users now).losers.map
        fun u => u.user_id) =
      (losersSpec (firstDedup (tb.map fun b => b.user_id))
          (effectiveWinnerId st tb)).filter
        (fun p =>
          (fetchUserMap users
            (firstDedup (firstDedup (tb.map fun b => b.user_id) ++
              (effectiveWinnerId st tb).toList)) p).isSome) ∧
    (∀ u ∈ (buildCloseNotification aid title sb st tb users now).losers,
      fetchUserMap users
        (firstDedup (firstDedup (tb.map fun b => b.user_id) ++
          (effectiveWinnerId st tb).toList)) u.user_id = some u) := by
  refine ⟨rfl, rfl, rfl, rfl, ?_, ?_, ?_⟩
  · unfold buildCloseNotification
    cases hwid : effectiveWinnerId st tb with
    | none => rfl
    | some w =>
      dsimp only
      have hwu : winnerUser
          (fetchUserMap users (firstDedup (firstDedup (tb.map fun b => b.user_id) ++
            (some w).toList))) (some w) =
          some ((fetchUserMap users (firstDedup (firstDedup (tb.map fun b => b.user_id) ++
            (some w).toList)) w).getD
              { user_id := w, email := none, name := none, username := none }) := rfl
      rw [hwu, Option.map_some']
      rw [winnerUser_user_id _ _ _ _ hwu]
  · unfold buildCloseNotification
    dsimp only
    exact buildLosers_map_user_id users _ _ _
  · unfold buildCloseNotification
    dsimp only
    exact buildLosers_mem _ (fun pid u h => fetchUserMap_user_id users _ pid u h) _ _

/-- Counterexample to C7 as stated: with top bidders u1 (winner) and u2,
and u2 absent from the user table, the message's losers list is empty
while "participants minus winner" is [u2]. -/
theorem settlement_losers_counterexample :
    ((buildCloseNotification "a1" "T" (some 10)
        { status := some "live", high_bidder_id := some "u1",
          current_high_bid := some 100 }
        [{ user_id := "u1", username := "alice", amount := 100 },
         { user_id := "u2", username := "bob", amount := 90 }]
        [{ user_id := "u1", email := some "a@x", name := some "A",
           username := some "alice" }]
        999).losers.map fun u => u.user_id) = [] ∧
    losersSpec (firstDedup
        (([{ user_id := "u1", username := "alice", amount := 100 },
           { user_id := "u2", username := "bob", amount := 90 }] :
            List TopBid).map fun b => b.user_id))
      (some "u1") = ["u2"] := by
  constructor
  · rfl
  · rfl

/-- C8 (amended): `on_join_auction` rejects only an unauthenticated
connection or a missing `auction_id`; it never checks that live state
exists — for any auction id it adds the user to the participants set,
writes the set cardinality to `participant_count`, sends the
`joined_auction` snapshot (built from defaults when the state is
missing) and broadcasts `user_joined`, with no "not found" error. -/
theorem join_auction_no_livestate_check (c : ConnInfo) (aid : String)
    (st : Option LiveState) (participants : List String) (z : ZSet)
    (chat : List String) :
    (onJoinAuction none (some aid) st participants z chat =
      ([.error "Not authenticated"], participants, st)) ∧
    (onJoinAuction (some c) none st participants z chat =
      ([.error "Missing auction_id"], participants, st)) ∧
    (∃ snapshot,
      onJoinAuction (some c) (some aid) st participants z chat =
        ([.joinedAuction snapshot,
          .userJoined c.user_id c.username
            (joinParticipants c.user_id participants).length],
         joinParticipants c.user_id participants,
         some { st.getD {} with
           participant_count :=
             some (joinParticipants c.user_id participants).length }) ∧
      snapshot.auction_id = aid ∧
      snapshot.participant_count =
        (joinParticipants c.user_id participants).length ∧
      snapshot.top_bids = getTopBids z 3) ∧
    c.user_id ∈ (onJoinAuction (some c) (some aid) st participants z chat).2.1 := by
  refine ⟨rfl, rfl, ⟨_, rfl, rfl, ?_, rfl⟩, ?_⟩
  · dsimp only
    rw [Option.getD_some]
  · unfold onJoinAuction joinParticipants
    dsimp only
    by_cases hm : c.user_id ∈ participants
    · rw [if_pos hm]
      exact hm
    · rw [if_neg hm]
      exact List.mem_append.mpr (Or.inr (List.mem_singleton.mpr rfl))

/-- Counterexample to C8 as stated: joining an auction with no live state
returns the full `joined_auction` snapshot (with default fields) and adds
the user to the participants set — no "not found" error is sent. -/
theorem join_auction_counterexample :
    onJoinAuction (some { user_id := "u1", username := "alice" }) (some "a1")
        none [] [] [] =
      ([.joinedAuction
          { auction_id := "a1", status := none, current_high_bid := 0,
            high_bidder_id := none, high_bidder_username := none,
            participant_count := 1, bid_count := 0, top_bids := [],
            you_are_winning := false, chat_messages := [] },
        .userJoined "u1" "alice" 1],
       ["u1"],
       some { status := none, host_user_id := none, current_high_bid := none,
              high_bidder_id := none, high_bidder_username := none,
              last_bid_time := none, start_time := none, end_time := none,
              participant_count := some 1, bid_count := none,
              anti_snipe_count := none }) := by
  rfl

/-- C9: after any sequence of `add_top_bid` operations from the empty set
the leaderboard holds at most three entries, `get_top_bids` lists them in
descending order of amount, and every entry an operation trims away
scores at or below every kept entry. -/
theorem leaderboard_capped_top3 :
    (∀ ops : List (String × String × ℚ),
      (ops.foldl (fun z o => addTopBid z o.1 o.2.1 o.2.2) ([] : ZSet)).length ≤ 3) ∧
    (∀ ops : List (String × String × ℚ),
      List.Pairwise (fun a b : TopBid => b.amount ≤ a.amount)
        (getTopBids (ops.foldl (fun z o => addTopBid z o.1 o.2.1 o.2.2) ([] : ZSet)) 3)) ∧
    (∀ (z : ZSet) (u n : String) (a : ℚ), ∀ p ∈ zadd z (u ++ ":" ++ n) a,
      p ∉ addTopBid z u n a → ∀ q ∈ addTopBid z u n a, p.2 ≤ q.2) := by
  refine ⟨foldl_addTopBid_length_le, ?_, addTopBid_drops_only_lowest⟩
  intro ops
  exact getTopBids_amount_antitone _ (foldl_addTopBid_sorted ops) 3

end LiveAuction
